import Mathlib

/-!
Verification of the group-conversation controller described by this
repository's notebooks: the termination-condition state machine, the
AND/OR composites, the round-robin run loop with cooperative
cancellation, and the speaker-selection helpers.

The notebooks define `FunctionCallTermination` and `selector_func`
directly; those are embedded from the source. The surrounding
orchestration (built-in conditions, composites, the group-chat run
loop, candidate narrowing) lives in the external `autogen` library and
is modelled from the spec's description of its documented behavior.
-/

namespace AutogenWorkshop

/-- A `FunctionExecutionResult`: the result of one tool execution, carrying
the executed function's name (from `autogen_core.models`). -/
structure FunctionExecutionResult where
  name : String
  content : String
deriving DecidableEq, Repr

/-- The message kinds the claims need: plain `TextMessage`s, `StopMessage`s
and `ToolCallExecutionEvent`s (whose content is a list of
`FunctionExecutionResult`s), each carrying a source identifier. -/
inductive AgentMessage where
  | text (source content : String)
  | stop (source content : String)
  | toolCallExecution (source : String) (content : List FunctionExecutionResult)
deriving DecidableEq, Repr

/-- The participant that produced the message. -/
def AgentMessage.source : AgentMessage → String
  | .text s _ => s
  | .stop s _ => s
  | .toolCallExecution s _ => s

/-- The textual rendering of a message (`to_text` in the notebooks). -/
def AgentMessage.to_text : AgentMessage → String
  | .text _ c => c
  | .stop _ c => c
  | .toolCallExecution _ rs => String.intercalate "\n" (rs.map (fun r => r.content))

/-- A `StopMessage`: the value a termination condition returns when it
decides the conversation must stop. -/
structure StopMessage where
  content : String
  source : String
deriving DecidableEq, Repr

/-- Whether `pat` occurs as a substring of `hay` (used by the text-mention
leaf condition). -/
def containsText (hay pat : String) : Bool :=
  (hay.splitOn pat).length != 1

/-- The error message raised by a triggered condition, taken verbatim from
the notebook's `FunctionCallTermination.__call__`
(`TerminatedException("Termination condition has already been reached")`). -/
def terminatedError : String := "Termination condition has already been reached"

/-- A stateful termination condition. The `functionCall` leaf embeds the
notebook's `FunctionCallTermination` class (fields `_function_name` and
`_terminated`). Modelled from the spec: the `maxMessage` and `textMention`
leaves (`MaxMessageTermination` with its running counter, and
`TextMentionTermination`) and the `orC`/`andC` composites live in the
external autogen library and follow the spec's description. -/
inductive TerminationCondition where
  | maxMessage (max_messages : Nat) (message_count : Nat) (terminatedFlag : Bool)
  | textMention (text : String) (terminatedFlag : Bool)
  | functionCall (function_name : String) (terminatedFlag : Bool)
  | orC (a b : TerminationCondition)
  | andC (a b : TerminationCondition)
deriving DecidableEq, Repr

/-- The `terminated` property: a leaf is terminated when its flag is set; an
OR composite when any child is, an AND composite when every child is. -/
def TerminationCondition.terminated : TerminationCondition → Bool
  | .maxMessage _ _ t => t
  | .textMention _ t => t
  | .functionCall _ t => t
  | .orC a b => a.terminated || b.terminated
  | .andC a b => a.terminated && b.terminated

/-- The scanning loop of `FunctionCallTermination.__call__`, embedded from
the notebook source: walk the delta, and on each `ToolCallExecutionEvent`
look for an execution result whose `name` equals the configured function
name, returning at the first match. -/
def findFunctionExecution (function_name : String) : List AgentMessage → Bool
  | [] => false
  | m :: rest =>
    match m with
    | .toolCallExecution _ content =>
      if content.any (fun execution => execution.name == function_name) then true
      else findFunctionExecution function_name rest
    | _ => findFunctionExecution function_name rest

/-- The `StopMessage` built by `FunctionCallTermination.__call__` on a match,
with its content and source taken verbatim from the notebook source. -/
def stopMessageOfFunctionCall (function_name : String) : StopMessage :=
  { content := "Function '" ++ function_name ++ "' was executed.",
    source := "FunctionCallTermination" }

/-- Content of the stop message an OR composite propagates. -/
def joinStopContents : Option StopMessage → Option StopMessage → String
  | some ra, some rb => ra.content ++ "; " ++ rb.content
  | some ra, none => ra.content
  | none, some rb => rb.content
  | none, none => ""

/-- One evaluation call of a termination condition on the delta batch of
messages produced since its previous call. A triggered condition fails with
`terminatedError`; otherwise the call returns an optional `StopMessage` and
the condition's next state. The `functionCall` arm is embedded from the
notebook's `FunctionCallTermination.__call__`. Modelled from the spec: the
`maxMessage` leaf adds the batch length to its running counter and triggers
when the counter reaches the threshold; the `textMention` leaf scans the
delta for its substring; the composites forward the same delta to their
children (AND skips children that have already triggered, each child keeping
its own triggered state) and trigger per their boolean combination. -/
def TerminationCondition.call :
    TerminationCondition → List AgentMessage →
      Except String (Option StopMessage × TerminationCondition)
  | .maxMessage max_messages message_count t, messages =>
    if t then .error terminatedError
    else
      let count := message_count + messages.length
      if max_messages ≤ count then
        .ok (some { content := "Maximum number of messages " ++ toString max_messages ++
                      " reached, current message count: " ++ toString count,
                    source := "MaxMessageTermination" },
             .maxMessage max_messages count true)
      else .ok (none, .maxMessage max_messages count false)
  | .textMention text t, messages =>
    if t then .error terminatedError
    else if messages.any (fun m => containsText m.to_text text) then
      .ok (some { content := "Text '" ++ text ++ "' mentioned", source := "TextMentionTermination" },
           .textMention text true)
    else .ok (none, .textMention text false)
  | .functionCall function_name t, messages =>
    if t then .error terminatedError
    else if findFunctionExecution function_name messages then
      .ok (some (stopMessageOfFunctionCall function_name), .functionCall function_name true)
    else .ok (none, .functionCall function_name false)
  | .orC a b, messages =>
    if a.terminated || b.terminated then .error terminatedError
    else
      match a.call messages, b.call messages with
      | .ok (ra, a1), .ok (rb, b1) =>
        if a1.terminated || b1.terminated then
          .ok (some { content := joinStopContents ra rb, source := "OrTerminationCondition" },
               .orC a1 b1)
        else .ok (none, .orC a1 b1)
      | .error e, _ => .error e
      | _, .error e => .error e
  | .andC a b, messages =>
    if a.terminated && b.terminated then .error terminatedError
    else
      match (if a.terminated then .ok (none, a) else a.call messages :
               Except String (Option StopMessage × TerminationCondition)),
            (if b.terminated then .ok (none, b) else b.call messages :
               Except String (Option StopMessage × TerminationCondition)) with
      | .ok (_, a1), .ok (_, b1) =>
        if a1.terminated && b1.terminated then
          .ok (some { content := "All termination conditions have been met",
                      source := "AndTerminationCondition" },
               .andC a1 b1)
        else .ok (none, .andC a1 b1)
      | .error e, _ => .error e
      | _, .error e => .error e

/-- Explicit reset back to the armed state: leaves clear their flag (and the
max-message leaf its running counter, per the spec); composites reset all
their children. The `functionCall` arm is the notebook's
`FunctionCallTermination.reset` (`self._terminated = False`). -/
def TerminationCondition.reset : TerminationCondition → TerminationCondition
  | .maxMessage m _ _ => .maxMessage m 0 false
  | .textMention t _ => .textMention t false
  | .functionCall f _ => .functionCall f false
  | .orC a b => .orC a.reset b.reset
  | .andC a b => .andC a.reset b.reset

/-- The construction-time configuration of a condition: everything except
its mutable state. -/
inductive TermConfig where
  | maxMessage (max_messages : Nat)
  | textMention (text : String)
  | functionCall (function_name : String)
  | orC (a b : TermConfig)
  | andC (a b : TermConfig)
deriving DecidableEq, Repr

/-- The configuration a condition was constructed with. -/
def TerminationCondition.config : TerminationCondition → TermConfig
  | .maxMessage m _ _ => .maxMessage m
  | .textMention t _ => .textMention t
  | .functionCall f _ => .functionCall f
  | .orC a b => .orC a.config b.config
  | .andC a b => .andC a.config b.config

/-- A freshly constructed condition for a configuration. -/
def TermConfig.build : TermConfig → TerminationCondition
  | .maxMessage m => .maxMessage m 0 false
  | .textMention t => .textMention t false
  | .functionCall f => .functionCall f false
  | .orC a b => .orC a.build b.build
  | .andC a b => .andC a.build b.build

theorem call_error_of_terminated (c : TerminationCondition) (h : c.terminated = true)
    (msgs : List AgentMessage) : c.call msgs = .error terminatedError := by
  cases c <;> simp [TerminationCondition.terminated] at h <;>
    simp [TerminationCondition.call, TerminationCondition.terminated, h]

theorem call_ok_of_not_terminated (c : TerminationCondition) (h : c.terminated = false)
    (msgs : List AgentMessage) :
    ∃ r c1, c.call msgs = .ok (r, c1) := by
  induction c with
  | maxMessage m k t =>
    simp [TerminationCondition.terminated] at h
    simp only [TerminationCondition.call, h, if_false]
    by_cases hc : m ≤ k + msgs.length <;> simp [hc]
  | textMention t f =>
    simp [TerminationCondition.terminated] at h
    simp only [TerminationCondition.call, h, if_false]
    by_cases hc : msgs.any (fun m => containsText m.to_text t) <;> simp [hc]
  | functionCall f t =>
    simp [TerminationCondition.terminated] at h
    simp only [TerminationCondition.call, h, if_false]
    by_cases hc : findFunctionExecution f msgs <;> simp [hc]
  | orC a b iha ihb =>
    simp [TerminationCondition.terminated] at h
    obtain ⟨ha, hb⟩ := h
    obtain ⟨ra, a1, hca⟩ := iha ha
    obtain ⟨rb, b1, hcb⟩ := ihb hb
    simp only [TerminationCondition.call, TerminationCondition.terminated, ha, hb, hca, hcb]
    by_cases hc : a1.terminated || b1.terminated <;> simp [hc]
  | andC a b iha ihb =>
    simp only [TerminationCondition.terminated] at h
    simp only [TerminationCondition.call]
    cases ha : a.terminated <;> cases hb : b.terminated
    · obtain ⟨ra, a1, hca⟩ := iha ha
      obtain ⟨rb, b1, hcb⟩ := ihb hb
      simp [ha, hb, hca, hcb]
      split <;> simp
    · obtain ⟨ra, a1, hca⟩ := iha ha
      simp [ha, hb, hca]
      split <;> simp
    · obtain ⟨rb, b1, hcb⟩ := ihb hb
      simp [ha, hb, hcb]
      split <;> simp
    · rw [ha, hb] at h
      simp at h

theorem reset_terminated (c : TerminationCondition) : c.reset.terminated = false := by
  induction c <;>
    simp [TerminationCondition.reset, TerminationCondition.terminated, *]

theorem reset_eq_build_config (c : TerminationCondition) :
    c.reset = c.config.build := by
  induction c <;>
    simp [TerminationCondition.reset, TerminationCondition.config, TermConfig.build, *]

/-- Feeding a condition a sequence of delta batches, threading its state
through successive evaluation calls; a triggered condition refuses further
batches (its call fails), so feeding stops there. -/
def TerminationCondition.feed :
    TerminationCondition → List (List AgentMessage) → TerminationCondition
  | c, [] => c
  | c, batch :: rest =>
    match c.call batch with
    | .ok (_, c1) => TerminationCondition.feed c1 rest
    | .error _ => c

theorem feed_of_terminated {c : TerminationCondition} (h : c.terminated = true)
    (bs : List (List AgentMessage)) : c.feed bs = c := by
  cases bs with
  | nil => rfl
  | cons batch rest =>
    simp [TerminationCondition.feed, call_error_of_terminated c h]

theorem feed_terminated_mono {c : TerminationCondition} {bs : List (List AgentMessage)}
    {n : Nat} (h : (c.feed (bs.take n)).terminated = true) :
    (c.feed bs).terminated = true := by
  induction bs generalizing c n with
  | nil => simpa using h
  | cons batch rest ih =>
    cases n with
    | zero =>
      simp [TerminationCondition.feed] at h
      simp [TerminationCondition.feed, call_error_of_terminated c h]
      exact h
    | succ m =>
      simp only [List.take_succ_cons] at h
      cases hc : c.call batch with
      | error e =>
        simp only [TerminationCondition.feed, hc] at h ⊢
        exact h
      | ok rc =>
        obtain ⟨r, c1⟩ := rc
        simp only [TerminationCondition.feed, hc] at h ⊢
        exact ih h

theorem and_feed_step (a b : TerminationCondition) (batch : List AgentMessage)
    (h : (a.terminated && b.terminated) = false) :
    ∃ r a2 b2, (TerminationCondition.andC a b).call batch = .ok (r, .andC a2 b2)
      ∧ (∀ rest, a.feed (batch :: rest) = a2.feed rest)
      ∧ (∀ rest, b.feed (batch :: rest) = b2.feed rest) := by
  cases ha : a.terminated <;> cases hb : b.terminated
  · obtain ⟨ra, a1, hca⟩ := call_ok_of_not_terminated a ha batch
    obtain ⟨rb, b1, hcb⟩ := call_ok_of_not_terminated b hb batch
    have hcomp : ∃ r, (TerminationCondition.andC a b).call batch = .ok (r, .andC a1 b1) := by
      simp only [TerminationCondition.call, ha, hb, hca, hcb]
      simp only [Bool.and_false, Bool.false_and, Bool.false_eq_true, if_false]
      split <;> simp
    obtain ⟨r, hcall⟩ := hcomp
    exact ⟨r, a1, b1, hcall,
      fun rest => by simp [TerminationCondition.feed, hca],
      fun rest => by simp [TerminationCondition.feed, hcb]⟩
  · obtain ⟨ra, a1, hca⟩ := call_ok_of_not_terminated a ha batch
    have hcomp : ∃ r, (TerminationCondition.andC a b).call batch = .ok (r, .andC a1 b) := by
      simp only [TerminationCondition.call, ha, hb, hca]
      simp only [Bool.false_and, Bool.false_eq_true, if_false, if_true, ite_true]
      split <;> simp
    obtain ⟨r, hcall⟩ := hcomp
    exact ⟨r, a1, b, hcall,
      fun rest => by simp [TerminationCondition.feed, hca],
      fun rest => by rw [feed_of_terminated hb, feed_of_terminated hb]⟩
  · obtain ⟨rb, b1, hcb⟩ := call_ok_of_not_terminated b hb batch
    have hcomp : ∃ r, (TerminationCondition.andC a b).call batch = .ok (r, .andC a b1) := by
      simp only [TerminationCondition.call, ha, hb, hcb]
      simp only [Bool.and_false, Bool.false_eq_true, if_false, if_true, ite_true]
      split <;> simp
    obtain ⟨r, hcall⟩ := hcomp
    exact ⟨r, a, b1, hcall,
      fun rest => by rw [feed_of_terminated ha, feed_of_terminated ha],
      fun rest => by simp [TerminationCondition.feed, hcb]⟩
  · rw [ha, hb] at h
    simp at h

theorem and_feed (a b : TerminationCondition) (bs : List (List AgentMessage)) :
    (TerminationCondition.andC a b).feed bs =
      .andC (a.feed bs) (b.feed bs) := by
  induction bs generalizing a b with
  | nil => rfl
  | cons batch rest ih =>
    by_cases hterm : (a.terminated && b.terminated) = true
    · have hab : (TerminationCondition.andC a b).terminated = true := hterm
      rw [feed_of_terminated hab]
      obtain ⟨ha, hb⟩ := Bool.and_eq_true_iff.mp hterm
      rw [feed_of_terminated ha, feed_of_terminated hb]
    · obtain ⟨r, a2, b2, hcall, hfa, hfb⟩ :=
        and_feed_step a b batch (Bool.not_eq_true _ ▸ hterm)
      calc (TerminationCondition.andC a b).feed (batch :: rest)
          = (TerminationCondition.andC a2 b2).feed rest := by
            simp [TerminationCondition.feed, hcall]
        _ = .andC (a2.feed rest) (b2.feed rest) := ih a2 b2
        _ = .andC (a.feed (batch :: rest)) (b.feed (batch :: rest)) := by
            rw [hfa, hfb]

theorem or_feed_step (a b : TerminationCondition) (batch : List AgentMessage)
    (h : (a.terminated || b.terminated) = false) :
    ∃ r a1 b1, (TerminationCondition.orC a b).call batch = .ok (r, .orC a1 b1)
      ∧ (∀ rest, a.feed (batch :: rest) = a1.feed rest)
      ∧ (∀ rest, b.feed (batch :: rest) = b1.feed rest) := by
  obtain ⟨ha, hb⟩ := Bool.or_eq_false_iff.mp h
  obtain ⟨ra, a1, hca⟩ := call_ok_of_not_terminated a ha batch
  obtain ⟨rb, b1, hcb⟩ := call_ok_of_not_terminated b hb batch
  have hcomp : ∃ r, (TerminationCondition.orC a b).call batch = .ok (r, .orC a1 b1) := by
    simp only [TerminationCondition.call, ha, hb, hca, hcb]
    simp only [Bool.or_self, Bool.false_eq_true, if_false]
    split <;> simp
  obtain ⟨r, hcall⟩ := hcomp
  exact ⟨r, a1, b1, hcall,
    fun rest => by simp [TerminationCondition.feed, hca],
    fun rest => by simp [TerminationCondition.feed, hcb]⟩

theorem or_feed_terminated (a b : TerminationCondition) (bs : List (List AgentMessage)) :
    ((TerminationCondition.orC a b).feed bs).terminated =
      ((a.feed bs).terminated || (b.feed bs).terminated) := by
  induction bs generalizing a b with
  | nil => rfl
  | cons batch rest ih =>
    by_cases hterm : (a.terminated || b.terminated) = true
    · have hab : (TerminationCondition.orC a b).terminated = true := hterm
      rw [feed_of_terminated hab]
      rcases Bool.or_eq_true_iff.mp hterm with ha | hb
      · rw [feed_of_terminated ha]
        simp [TerminationCondition.terminated, hterm, ha]
      · rw [feed_of_terminated hb]
        simp [TerminationCondition.terminated, hterm, hb]
    · obtain ⟨r, a1, b1, hcall, hfa, hfb⟩ :=
        or_feed_step a b batch (Bool.not_eq_true _ ▸ hterm)
      calc ((TerminationCondition.orC a b).feed (batch :: rest)).terminated
          = ((TerminationCondition.orC a1 b1).feed rest).terminated := by
            simp [TerminationCondition.feed, hcall]
        _ = ((a1.feed rest).terminated || (b1.feed rest).terminated) := ih a1 b1
        _ = ((a.feed (batch :: rest)).terminated || (b.feed (batch :: rest)).terminated) := by
            rw [hfa, hfb]

/-- A participant's `Response`: an ordered list of inner events produced
while working plus exactly one final chat message. -/
structure Response where
  inner_messages : List AgentMessage
  chat_message : AgentMessage
deriving DecidableEq, Repr

/-- The turn's delta: everything the participant produced this turn, the
batch the termination condition is evaluated on. -/
def Response.delta (r : Response) : List AgentMessage :=
  r.inner_messages ++ [r.chat_message]

/-- A `TaskResult`: the messages produced during one run plus the reason the
run stopped. -/
structure TaskResult where
  messages : List AgentMessage
  stop_reason : Option String
deriving DecidableEq, Repr

/-- The state a team keeps across runs until an explicit reset: the shared
transcript, the round-robin selector's position, and the termination
condition object. -/
structure TeamState where
  transcript : List AgentMessage
  next_index : Nat
  condition : TerminationCondition
deriving Repr

/-- The outcome of one run invocation: a graceful completion carrying a
`TaskResult`, a cooperative cancellation (the `CancelledError` outcome,
carrying no `TaskResult`), or a protocol failure. -/
inductive RunResult where
  | completed (result : TaskResult)
  | cancelled
  | failed (error : String)
deriving DecidableEq, Repr

/-- Everything one run invocation produces: the outcome, the team state
afterwards, the sequence of delta batches passed to the termination
condition (one entry per evaluation call), the committed participant
responses, the speakers in order, and the number of cancellation checks
performed. -/
structure RunTrace where
  result : RunResult
  state : TeamState
  deltas : List (List AgentMessage)
  turns : List Response
  speakers : List String
  checks : Nat

/-- A cancellation token, modelled by the number of cooperative checks that
will happen before the token reads as cancelled: `some 0` reads cancelled
now (and stays cancelled), `some (n+1)` becomes `some n` after a check, and
`none` is a token that is never cancelled. -/
def decrToken : Option Nat → Option Nat
  | some (n + 1) => some n
  | x => x

/-- Prefix a completed result's message list with an earlier delta of the
same run; aborted and failed outcomes carry no `TaskResult` to extend. -/
def prependResult (delta : List AgentMessage) : RunResult → RunResult
  | .completed tr => .completed { messages := delta ++ tr.messages, stop_reason := tr.stop_reason }
  | r => r

/-- The round-robin selector: strict cyclic order over the registry,
starting from the persisted position. -/
def speakerAt (participants : List String) (i : Nat) : String :=
  participants.getD (i % participants.length) ""

/-- Trace of a run segment aborted by cancellation: nothing committed. -/
def cancelTrace (st : TeamState) (checks : Nat) : RunTrace :=
  { result := .cancelled, state := st, deltas := [], turns := [], speakers := [], checks := checks }

/-- Trace of a run segment that hit a protocol failure. -/
def failTrace (st : TeamState) (e : String) (checks : Nat) : RunTrace :=
  { result := .failed e, state := st, deltas := [], turns := [], speakers := [], checks := checks }

/-- Trace of a run segment whose first turn triggered the termination
condition: the turn commits, the run stops with the triggering condition's
message as stop reason, and the condition resets automatically now that the
run is finished. -/
def stopTrace (st : TeamState) (speaker : String) (response : Response)
    (stopMsg : StopMessage) (cond1 : TerminationCondition) : RunTrace :=
  { result := .completed { messages := response.delta, stop_reason := some stopMsg.content },
    state := { transcript := st.transcript ++ response.delta,
               next_index := st.next_index + 1, condition := cond1.reset },
    deltas := [response.delta], turns := [response], speakers := [speaker], checks := 2 }

/-- Prefix a run-segment trace with one committed (non-stopping) turn; the
turn performed two cancellation checks. -/
def prependTurn (response : Response) (speaker : String) (t : RunTrace) : RunTrace :=
  { result := prependResult response.delta t.result,
    state := t.state,
    deltas := response.delta :: t.deltas,
    turns := response :: t.turns,
    speakers := speaker :: t.speakers,
    checks := 2 + t.checks }

/-- Modelled from the spec: the group chat's run loop (autogen library code
absent from src). Each iteration asks the round-robin selector for the next
participant, checks the cancellation token (a suspension point), invokes the
participant on the shared transcript, checks the token again before
committing (so an abort discards the in-flight response), appends the turn's
delta to the transcript, and evaluates the termination condition with
exactly that delta — once per response. `fuel` bounds the number of turns
(the model's stand-in for a run that would otherwise continue). -/
def stepLoop (behavior : String → List AgentMessage → Response)
    (participants : List String) :
    Nat → Option Nat → TeamState → RunTrace
  | 0, _, st =>
    { result := .completed { messages := [], stop_reason := none },
      state := st, deltas := [], turns := [], speakers := [], checks := 0 }
  | fuel + 1, tok, st =>
    if tok = some 0 then cancelTrace st 1
    else
      let speaker := speakerAt participants st.next_index
      let response := behavior speaker st.transcript
      if decrToken tok = some 0 then cancelTrace st 2
      else
        match st.condition.call response.delta with
        | .error e => failTrace st e 2
        | .ok (some stopMsg, cond1) => stopTrace st speaker response stopMsg cond1
        | .ok (none, cond1) =>
          prependTurn response speaker
            (stepLoop behavior participants fuel (decrToken (decrToken tok))
              { transcript := st.transcript ++ response.delta,
                next_index := st.next_index + 1, condition := cond1 })

/-- The synthetic message a new task enters the run as. -/
def taskMessage (taskText : String) : AgentMessage := .text "user" taskText

/-- The delta batches contributed by the optional task message. -/
def taskDeltas : Option String → List (List AgentMessage)
  | none => []
  | some t => [[taskMessage t]]

/-- Prefix a run-segment trace with the task message's committed delta (the
task enters the transcript and the condition's delta stream, but is not a
participant turn). -/
def prependTask (m : AgentMessage) (t : RunTrace) : RunTrace :=
  { result := prependResult [m] t.result,
    state := t.state,
    deltas := [m] :: t.deltas,
    turns := t.turns,
    speakers := t.speakers,
    checks := t.checks }

/-- Modelled from the spec: one `run`/`run_stream` invocation (autogen
library code absent from src). A new task is appended as a message from the
synthetic "user" source and evaluated by the termination condition before
the loop; running with no task resumes the loop directly on the persisted
state. -/
def runTeam (behavior : String → List AgentMessage → Response)
    (participants : List String) (tok : Option Nat) (task : Option String)
    (fuel : Nat) (st : TeamState) : RunTrace :=
  match task with
  | none => stepLoop behavior participants fuel tok st
  | some taskText =>
    match st.condition.call [taskMessage taskText] with
    | .error e => failTrace st e 0
    | .ok (some stopMsg, cond1) =>
      { result := .completed { messages := [taskMessage taskText],
                               stop_reason := some stopMsg.content },
        state := { transcript := st.transcript ++ [taskMessage taskText],
                   next_index := st.next_index, condition := cond1.reset },
        deltas := [[taskMessage taskText]], turns := [], speakers := [], checks := 0 }
    | .ok (none, cond1) =>
      prependTask (taskMessage taskText)
        (stepLoop behavior participants fuel tok
          { transcript := st.transcript ++ [taskMessage taskText],
            next_index := st.next_index, condition := cond1 })

theorem prependResult_cancelled (delta : List AgentMessage) (r : RunResult) :
    prependResult delta r = .cancelled ↔ r = .cancelled := by
  cases r <;> simp [prependResult]

theorem prependResult_completed (delta : List AgentMessage) (r : RunResult) (tr : TaskResult)
    (h : prependResult delta r = .completed tr) :
    ∃ tr0, r = .completed tr0 ∧ tr.messages = delta ++ tr0.messages := by
  cases r with
  | completed tr0 =>
    simp only [prependResult] at h
    cases h
    exact ⟨tr0, rfl, rfl⟩
  | cancelled => simp [prependResult] at h
  | failed e => simp [prependResult] at h

theorem token_notlt2 {tok : Option Nat} (h1 : tok ≠ some 0) (h2 : decrToken tok ≠ some 0) :
    ¬∃ n, tok = some n ∧ n < 2 := by
  rintro ⟨n, rfl, hlt⟩
  match n, hlt with
  | 0, _ => exact h1 rfl
  | 1, _ => exact h2 rfl

theorem token_shift {tok : Option Nat} (h1 : tok ≠ some 0) (h2 : decrToken tok ≠ some 0)
    (c : Nat) :
    (∃ n, decrToken (decrToken tok) = some n ∧ n < c) ↔ ∃ n, tok = some n ∧ n < 2 + c := by
  match tok with
  | none => simp [decrToken]
  | some 0 => exact absurd rfl h1
  | some 1 => exact absurd rfl h2
  | some (k + 2) =>
    simp only [decrToken]
    constructor
    · rintro ⟨n, hn, hlt⟩
      cases hn
      exact ⟨k + 2, rfl, by omega⟩
    · rintro ⟨n, hn, hlt⟩
      cases hn
      exact ⟨k, rfl, by omega⟩

theorem prependTurn_spec (participants : List String) (response : Response) (st : TeamState)
    (tok : Option Nat) (rest : RunTrace)
    (h1 : tok ≠ some 0) (h2 : decrToken tok ≠ some 0)
    (iht : rest.state.transcript = (st.transcript ++ response.delta) ++ rest.deltas.flatten)
    (ihd : rest.deltas = rest.turns.map Response.delta)
    (ihsl : rest.speakers.length = rest.turns.length)
    (ihs : ∀ k, rest.speakers[k]? = if k < rest.turns.length then
        some (speakerAt participants (st.next_index + 1 + k)) else none)
    (ihn : rest.state.next_index = st.next_index + 1 + rest.turns.length)
    (ihc : ∀ tr, rest.result = .completed tr → tr.messages = rest.deltas.flatten)
    (ihx : rest.result = .cancelled ↔ ∃ n, decrToken (decrToken tok) = some n ∧ n < rest.checks) :
    (prependTurn response (speakerAt participants st.next_index) rest).state.transcript
      = st.transcript ++ (prependTurn response (speakerAt participants st.next_index) rest).deltas.flatten
    ∧ (prependTurn response (speakerAt participants st.next_index) rest).deltas
      = (prependTurn response (speakerAt participants st.next_index) rest).turns.map Response.delta
    ∧ (prependTurn response (speakerAt participants st.next_index) rest).speakers.length
      = (prependTurn response (speakerAt participants st.next_index) rest).turns.length
    ∧ (∀ k, (prependTurn response (speakerAt participants st.next_index) rest).speakers[k]? =
        if k < (prependTurn response (speakerAt participants st.next_index) rest).turns.length then
          some (speakerAt participants (st.next_index + k)) else none)
    ∧ (prependTurn response (speakerAt participants st.next_index) rest).state.next_index
      = st.next_index + (prependTurn response (speakerAt participants st.next_index) rest).turns.length
    ∧ (∀ tr, (prependTurn response (speakerAt participants st.next_index) rest).result = .completed tr →
        tr.messages = (prependTurn response (speakerAt participants st.next_index) rest).deltas.flatten)
    ∧ ((prependTurn response (speakerAt participants st.next_index) rest).result = .cancelled ↔
        ∃ n, tok = some n ∧ n < (prependTurn response (speakerAt participants st.next_index) rest).checks) := by
  refine ⟨?_, ?_, ?_, ?_, ?_, ?_, ?_⟩
  · simp only [prependTurn, List.flatten_cons]
    rw [iht]
    simp [List.append_assoc]
  · simp only [prependTurn, List.map_cons]
    rw [ihd]
  · simp only [prependTurn, List.length_cons]
    rw [ihsl]
  · intro k
    simp only [prependTurn, List.length_cons]
    match k with
    | 0 => simp
    | k + 1 =>
      simp only [List.getElem?_cons_succ]
      rw [ihs k]
      have harith : st.next_index + 1 + k = st.next_index + (k + 1) := by omega
      simp only [harith, Nat.succ_lt_succ_iff]
  · simp only [prependTurn, List.length_cons]
    rw [ihn]
    omega
  · intro tr h
    simp only [prependTurn] at h
    obtain ⟨tr0, h0, hmsg⟩ := prependResult_completed _ _ _ h
    rw [hmsg, ihc tr0 h0]
    simp [prependTurn]
  · simp only [prependTurn]
    rw [prependResult_cancelled, ihx]
    exact token_shift h1 h2 _

theorem stepLoop_spec (behavior : String → List AgentMessage → Response)
    (participants : List String) (fuel : Nat) (tok : Option Nat) (st : TeamState)
    (out : RunTrace) (hout : out = stepLoop behavior participants fuel tok st) :
    out.state.transcript = st.transcript ++ out.deltas.flatten
    ∧ out.deltas = out.turns.map Response.delta
    ∧ out.speakers.length = out.turns.length
    ∧ (∀ k, out.speakers[k]? =
        if k < out.turns.length then some (speakerAt participants (st.next_index + k)) else none)
    ∧ out.state.next_index = st.next_index + out.turns.length
    ∧ (∀ tr, out.result = .completed tr → tr.messages = out.deltas.flatten)
    ∧ (out.result = .cancelled ↔ ∃ n, tok = some n ∧ n < out.checks) := by
  induction fuel generalizing tok st out with
  | zero =>
    subst hout
    simp only [stepLoop]
    refine ⟨by simp, rfl, rfl, by simp, by simp, ?_, by simp⟩
    rintro tr h
    cases h
    rfl
  | succ fuel ih =>
    subst hout
    simp only [stepLoop]
    by_cases h1 : tok = some 0
    · rw [if_pos h1]
      refine ⟨by simp [cancelTrace], rfl, rfl, by simp [cancelTrace], by simp [cancelTrace],
        by simp [cancelTrace], ?_⟩
      exact ⟨fun _ => ⟨0, h1, Nat.zero_lt_one⟩, fun _ => rfl⟩
    · rw [if_neg h1]
      by_cases h2 : decrToken tok = some 0
      · rw [if_pos h2]
        have htok1 : tok = some 1 := by
          match tok with
          | none => simp [decrToken] at h2
          | some 0 => exact absurd rfl h1
          | some (k + 1) =>
            simp only [decrToken, Option.some.injEq] at h2
            rw [h2]
        refine ⟨by simp [cancelTrace], rfl, rfl, by simp [cancelTrace], by simp [cancelTrace],
          by simp [cancelTrace], ?_⟩
        exact ⟨fun _ => ⟨1, htok1, Nat.one_lt_two⟩, fun _ => rfl⟩
      · rw [if_neg h2]
        rcases hc : st.condition.call
            (behavior (speakerAt participants st.next_index) st.transcript).delta
          with e | ⟨r, cond1⟩
        · simp only [hc]
          refine ⟨by simp [failTrace], rfl, rfl, by simp [failTrace], by simp [failTrace],
            by simp [failTrace], ?_⟩
          simp only [failTrace]
          constructor
          · intro h
            exact absurd h (by simp)
          · intro h
            exact absurd h (token_notlt2 h1 h2)
        · cases r with
          | some stopMsg =>
            simp only [hc]
            refine ⟨by simp [stopTrace], by simp [stopTrace, Response.delta], rfl, ?_,
              by simp [stopTrace], ?_, ?_⟩
            · intro k
              simp only [stopTrace]
              match k with
              | 0 => simp
              | k + 1 => simp
            · rintro tr h
              simp only [stopTrace] at h
              cases h
              simp [stopTrace]
            · simp only [stopTrace]
              constructor
              · intro h
                exact absurd h (by simp)
              · intro h
                exact absurd h (token_notlt2 h1 h2)
          | none =>
            simp only [hc]
            obtain ⟨iht, ihd, ihsl, ihs, ihn, ihc, ihx⟩ := ih (decrToken (decrToken tok))
              { transcript := st.transcript ++
                  (behavior (speakerAt participants st.next_index) st.transcript).delta,
                next_index := st.next_index + 1, condition := cond1 } _ rfl
            exact prependTurn_spec participants _ st tok _ h1 h2 iht ihd ihsl ihs ihn ihc ihx

theorem prependTask_spec (participants : List String) (m : AgentMessage) (st : TeamState)
    (tok : Option Nat) (rest : RunTrace)
    (iht : rest.state.transcript = (st.transcript ++ [m]) ++ rest.deltas.flatten)
    (ihd : rest.deltas = rest.turns.map Response.delta)
    (ihsl : rest.speakers.length = rest.turns.length)
    (ihs : ∀ k, rest.speakers[k]? = if k < rest.turns.length then
        some (speakerAt participants (st.next_index + k)) else none)
    (ihn : rest.state.next_index = st.next_index + rest.turns.length)
    (ihc : ∀ tr, rest.result = .completed tr → tr.messages = rest.deltas.flatten)
    (ihx : rest.result = .cancelled ↔ ∃ n, tok = some n ∧ n < rest.checks) :
    (prependTask m rest).state.transcript = st.transcript ++ (prependTask m rest).deltas.flatten
    ∧ (prependTask m rest).deltas = [[m]] ++ (prependTask m rest).turns.map Response.delta
    ∧ (prependTask m rest).speakers.length = (prependTask m rest).turns.length
    ∧ (∀ k, (prependTask m rest).speakers[k]? =
        if k < (prependTask m rest).turns.length then
          some (speakerAt participants (st.next_index + k)) else none)
    ∧ (prependTask m rest).state.next_index = st.next_index + (prependTask m rest).turns.length
    ∧ (∀ tr, (prependTask m rest).result = .completed tr →
        tr.messages = (prependTask m rest).deltas.flatten)
    ∧ ((prependTask m rest).result = .cancelled ↔
        ∃ n, tok = some n ∧ n < (prependTask m rest).checks) := by
  refine ⟨?_, ?_, ihsl, ihs, ihn, ?_, ?_⟩
  · simp only [prependTask, List.flatten_cons]
    rw [iht]
    simp [List.append_assoc]
  · simp only [prependTask, List.singleton_append]
    rw [ihd]
  · intro tr h
    simp only [prependTask] at h
    obtain ⟨tr0, h0, hmsg⟩ := prependResult_completed _ _ _ h
    rw [hmsg, ihc tr0 h0]
    simp [prependTask]
  · simp only [prependTask]
    rw [prependResult_cancelled, ihx]

theorem runTeam_spec (behavior : String → List AgentMessage → Response)
    (participants : List String) (tok : Option Nat) (task : Option String)
    (fuel : Nat) (st : TeamState) (out : RunTrace)
    (hout : out = runTeam behavior participants tok task fuel st) :
    out.state.transcript = st.transcript ++ out.deltas.flatten
    ∧ ((∀ e, out.result ≠ .failed e) → out.deltas = taskDeltas task ++ out.turns.map Response.delta)
    ∧ out.speakers.length = out.turns.length
    ∧ (∀ k, out.speakers[k]? =
        if k < out.turns.length then some (speakerAt participants (st.next_index + k)) else none)
    ∧ out.state.next_index = st.next_index + out.turns.length
    ∧ (∀ tr, out.result = .completed tr → tr.messages = out.deltas.flatten)
    ∧ (out.result = .cancelled ↔ ∃ n, tok = some n ∧ n < out.checks) := by
  cases task with
  | none =>
    obtain ⟨h1, h2, h3, h4, h5, h6, h7⟩ := stepLoop_spec behavior participants fuel tok st out hout
    exact ⟨h1, fun _ => by simpa [taskDeltas] using h2, h3, h4, h5, h6, h7⟩
  | some taskText =>
    subst hout
    rcases hc : st.condition.call [taskMessage taskText] with e | ⟨r, cond1⟩
    · simp only [runTeam, hc]
      refine ⟨by simp [failTrace], ?_, rfl, by simp [failTrace],
        by simp [failTrace], by simp [failTrace], ?_⟩
      · intro hne
        exact absurd rfl (hne e)
      simp only [failTrace]
      constructor
      · intro h
        exact absurd h (by simp)
      · rintro ⟨n, hn, hlt⟩
        exact absurd hlt (by omega)
    · cases r with
      | some stopMsg =>
        simp only [runTeam, hc]
        refine ⟨by simp, fun _ => by simp [taskDeltas], rfl, by simp, by simp, ?_, ?_⟩
        · rintro tr h
          cases h
          simp
        · constructor
          · intro h
            exact absurd h (by simp)
          · rintro ⟨n, hn, hlt⟩
            exact absurd hlt (by omega)
      | none =>
        simp only [runTeam, hc]
        obtain ⟨iht, ihd, ihsl, ihs, ihn, ihc, ihx⟩ := stepLoop_spec behavior participants fuel tok
          { transcript := st.transcript ++ [taskMessage taskText],
            next_index := st.next_index, condition := cond1 } _ rfl
        obtain ⟨jt, jd, jsl, js, jn, jc, jx⟩ := prependTask_spec participants
          (taskMessage taskText) st tok _ iht ihd ihsl ihs ihn ihc ihx
        exact ⟨jt, fun _ => jd, jsl, js, jn, jc, jx⟩

/-- Whether a message is a `ToolCallExecutionEvent` holding an execution
result whose name is exactly the given function name. -/
def functionExecutionMatch (function_name : String) : AgentMessage → Bool
  | .toolCallExecution _ content => content.any (fun e => e.name == function_name)
  | _ => false

theorem findFunctionExecution_eq_any (function_name : String) (messages : List AgentMessage) :
    findFunctionExecution function_name messages
      = messages.any (functionExecutionMatch function_name) := by
  induction messages with
  | nil => rfl
  | cons m rest ih =>
    cases m with
    | text s c => simp [findFunctionExecution, functionExecutionMatch, ih]
    | stop s c => simp [findFunctionExecution, functionExecutionMatch, ih]
    | toolCallExecution s content =>
      by_cases hcontent : content.any (fun e => e.name == function_name) = true
      · simp [findFunctionExecution, functionExecutionMatch, hcontent]
      · simp only [Bool.not_eq_true] at hcontent
        simp [findFunctionExecution, functionExecutionMatch, hcontent, ih]

/-- The planning agent's name in the selector notebook
(`planning_agent.name`). -/
def planning_agent_name : String := "PlanningAgent"

/-- From `src/02-autogen-agents/01-selector-group-chat.ipynb`, `selector_func`:
return the planning agent's name when the last message's source differs from
it, and `None` otherwise. Python indexes `messages[-1]` unguarded, so the
empty sequence raises an `IndexError`; the embedding surfaces that failure
through `Except`. -/
def selector_func (messages : List AgentMessage) : Except String (Option String) :=
  match messages.getLast? with
  | none => .error "IndexError: list index out of range"
  | some last =>
    if last.source ≠ planning_agent_name then .ok (some planning_agent_name)
    else .ok none

/-- Modelled from the spec: the speaker-selection step of a group chat
configured with a caller-supplied candidate-narrowing function (autogen
library code absent from src). An empty candidate list is an error (the
notebook documents it as raising a `ValueError`); a singleton forces that
speaker; several candidates are handed to the model-driven selection,
represented by the abstract `modelSelect` collaborator. -/
def selectSpeakerCandidates (candidate_func : List AgentMessage → List String)
    (modelSelect : List String → String) (history : List AgentMessage) :
    Except String String :=
  match candidate_func history with
  | [] => .error "ValueError: candidate_func returned an empty list of participants"
  | [only] => .ok only
  | cs => .ok (modelSelect cs)

theorem speakerAt_add_length (participants : List String) (i : Nat) :
    speakerAt participants (i + participants.length) = speakerAt participants i := by
  simp [speakerAt, Nat.add_mod_right]

theorem two_run_speakers (behavior : String → List AgentMessage → Response)
    (participants : List String) (tok1 tok2 : Option Nat) (task1 task2 : Option String)
    (fuel1 fuel2 : Nat) (st : TeamState) (out1 out2 : RunTrace)
    (hout1 : out1 = runTeam behavior participants tok1 task1 fuel1 st)
    (hout2 : out2 = runTeam behavior participants tok2 task2 fuel2 out1.state) :
    (out1.speakers ++ out2.speakers).length = out1.turns.length + out2.turns.length
    ∧ (∀ k, (out1.speakers ++ out2.speakers)[k]? =
        if k < out1.turns.length + out2.turns.length then
          some (speakerAt participants (st.next_index + k)) else none) := by
  obtain ⟨-, -, hl1, hs1, hn1, -, -⟩ := runTeam_spec behavior participants tok1 task1 fuel1 st out1 hout1
  obtain ⟨-, -, hl2, hs2, -, -, -⟩ :=
    runTeam_spec behavior participants tok2 task2 fuel2 out1.state out2 hout2
  constructor
  · simp [hl1, hl2]
  · intro k
    rw [List.getElem?_append]
    by_cases hk : k < out1.speakers.length
    · rw [if_pos hk, hs1 k]
      rw [hl1] at hk
      rw [if_pos hk, if_pos (by omega)]
    · rw [if_neg hk, hs2 (k - out1.speakers.length)]
      push_neg at hk
      rw [hl1] at hk
      rw [hl1]
      by_cases hk2 : k - out1.turns.length < out2.turns.length
      · rw [if_pos hk2, if_pos (by omega)]
        have harith : out1.state.next_index + (k - out1.turns.length) = st.next_index + k := by
          rw [hn1]
          omega
        rw [harith]
      · rw [if_neg hk2, if_neg (by omega)]

/-- C1: every TerminationCondition in the TRIGGERED state fails loudly with
the "already terminated" error on any evaluation call over any delta batch
(it never returns a continue/stop result), and after `reset()` the condition
is back in ARMED — the reset state is exactly the freshly constructed
condition of its configuration, so prior triggers cannot influence any
future evaluation. -/
theorem C1_triggered_evaluation_fails (c : TerminationCondition) (h : c.terminated = true) :
    (∀ msgs : List AgentMessage, c.call msgs = .error terminatedError)
    ∧ c.reset.terminated = false
    ∧ c.reset = c.config.build :=
  ⟨fun msgs => call_error_of_terminated c h msgs, reset_terminated c, reset_eq_build_config c⟩

/-- Witness for C1: the notebook's FunctionCallTermination for the `approve`
tool, in the triggered state. -/
theorem C1_triggered_evaluation_fails_witness :
    (TerminationCondition.functionCall "approve" true).terminated = true
    ∧ ((∀ msgs : List AgentMessage,
          (TerminationCondition.functionCall "approve" true).call msgs = .error terminatedError)
        ∧ (TerminationCondition.functionCall "approve" true).reset.terminated = false
        ∧ (TerminationCondition.functionCall "approve" true).reset
            = (TerminationCondition.functionCall "approve" true).config.build) :=
  ⟨rfl, C1_triggered_evaluation_fails (TerminationCondition.functionCall "approve" true) rfl⟩

/-- C2: over any sequence of delta batches (each batch forwarded unchanged to
both children), `OR(A,B)` ends triggered iff A or B triggers on some prefix
of the calls; `AND(A,B)` ends triggered iff both A and B have independently
triggered, in whatever order; and resetting either composite resets both
children. -/
theorem C2_composite_and_or (a b : TerminationCondition) (bs : List (List AgentMessage)) :
    (((TerminationCondition.orC a b).feed bs).terminated = true ↔
      ∃ n, (a.feed (bs.take n)).terminated = true ∨ (b.feed (bs.take n)).terminated = true)
    ∧ (((TerminationCondition.andC a b).feed bs).terminated = true ↔
      (a.feed bs).terminated = true ∧ (b.feed bs).terminated = true)
    ∧ (TerminationCondition.orC a b).reset = .orC a.reset b.reset
    ∧ (TerminationCondition.andC a b).reset = .andC a.reset b.reset := by
  refine ⟨?_, ?_, rfl, rfl⟩
  · rw [or_feed_terminated]
    constructor
    · intro h
      rcases Bool.or_eq_true_iff.mp h with h | h
      · exact ⟨bs.length, Or.inl (by rwa [List.take_length])⟩
      · exact ⟨bs.length, Or.inr (by rwa [List.take_length])⟩
    · rintro ⟨n, h | h⟩
      · exact Bool.or_eq_true_iff.mpr (Or.inl (feed_terminated_mono h))
      · exact Bool.or_eq_true_iff.mpr (Or.inr (feed_terminated_mono h))
  · rw [and_feed]
    simp [TerminationCondition.terminated]

/-- Witness for C2 at a max-1 and a text-mention child over a one-batch
sequence that triggers only the max-message child. -/
theorem C2_composite_and_or_witness :
    ((((TerminationCondition.maxMessage 1 0 false).orC
          (.textMention "APPROVE" false)).feed [[AgentMessage.text "primary" "hi"]]).terminated
        = true ↔
      ∃ n, ((TerminationCondition.maxMessage 1 0 false).feed
            ([[AgentMessage.text "primary" "hi"]].take n)).terminated = true
        ∨ ((TerminationCondition.textMention "APPROVE" false).feed
            ([[AgentMessage.text "primary" "hi"]].take n)).terminated = true)
    ∧ ((((TerminationCondition.maxMessage 1 0 false).andC
          (.textMention "APPROVE" false)).feed [[AgentMessage.text "primary" "hi"]]).terminated
        = true ↔
      ((TerminationCondition.maxMessage 1 0 false).feed
          [[AgentMessage.text "primary" "hi"]]).terminated = true
        ∧ ((TerminationCondition.textMention "APPROVE" false).feed
            [[AgentMessage.text "primary" "hi"]]).terminated = true)
    ∧ ((TerminationCondition.maxMessage 1 0 false).orC
          (.textMention "APPROVE" false)).reset
        = .orC (TerminationCondition.maxMessage 1 0 false).reset
            (TerminationCondition.textMention "APPROVE" false).reset
    ∧ ((TerminationCondition.maxMessage 1 0 false).andC
          (.textMention "APPROVE" false)).reset
        = .andC (TerminationCondition.maxMessage 1 0 false).reset
            (TerminationCondition.textMention "APPROVE" false).reset :=
  C2_composite_and_or (TerminationCondition.maxMessage 1 0 false)
    (TerminationCondition.textMention "APPROVE" false) [[AgentMessage.text "primary" "hi"]]

/-- C9: the notebook's FunctionCallTermination triggers only on a
`ToolCallExecutionEvent` containing an execution result named exactly the
configured function: each delta with no such event (including batches of
plain text that merely mention the name, and the empty batch) evaluates to
`None` with the condition staying ARMED; when a matching event is present,
evaluation returns a StopMessage naming the function whose source is
"FunctionCallTermination", and the condition triggers. -/
theorem C9_function_call_termination (function_name : String) (messages : List AgentMessage) :
    (messages.any (functionExecutionMatch function_name) = false →
      (TerminationCondition.functionCall function_name false).call messages
        = .ok (none, .functionCall function_name false))
    ∧ (messages.any (functionExecutionMatch function_name) = true →
      (TerminationCondition.functionCall function_name false).call messages
        = .ok (some { content := "Function '" ++ function_name ++ "' was executed.",
                      source := "FunctionCallTermination" },
               .functionCall function_name true)) := by
  constructor <;> intro h <;>
    simp [TerminationCondition.call, findFunctionExecution_eq_any, h, stopMessageOfFunctionCall]

/-- Witness for C9: a text message that merely mentions `approve`, the empty
batch, and a tool-call execution event for `approve`. -/
theorem C9_function_call_termination_witness :
    ([AgentMessage.text "critic" "please approve this"].any
        (functionExecutionMatch "approve") = false
      ∧ (TerminationCondition.functionCall "approve" false).call
          [AgentMessage.text "critic" "please approve this"]
        = .ok (none, .functionCall "approve" false))
    ∧ (([] : List AgentMessage).any (functionExecutionMatch "approve") = false
      ∧ (TerminationCondition.functionCall "approve" false).call []
        = .ok (none, .functionCall "approve" false))
    ∧ ([AgentMessage.toolCallExecution "critic"
          [{ name := "approve", content := "None" }]].any
            (functionExecutionMatch "approve") = true
      ∧ (TerminationCondition.functionCall "approve" false).call
          [AgentMessage.toolCallExecution "critic" [{ name := "approve", content := "None" }]]
        = .ok (some { content := "Function 'approve' was executed.",
                      source := "FunctionCallTermination" },
               .functionCall "approve" true)) :=
  ⟨⟨by decide, (C9_function_call_termination "approve"
      [AgentMessage.text "critic" "please approve this"]).1 (by decide)⟩,
   ⟨by decide, (C9_function_call_termination "approve" []).1 (by decide)⟩,
   ⟨by decide, (C9_function_call_termination "approve"
      [AgentMessage.toolCallExecution "critic" [{ name := "approve", content := "None" }]]).2
        (by decide)⟩⟩

/-- C8: a caller-supplied candidate-narrowing function that returns an empty
result makes the turn-selection step fail immediately with an error (never
silently ignored); a singleton return forces that speaker; several returned
names are handed to the model-driven selection, which therefore chooses
within the narrowed eligible set. -/
theorem C8_candidate_narrowing (candidate_func : List AgentMessage → List String)
    (modelSelect : List String → String) (history : List AgentMessage) :
    (candidate_func history = [] →
      selectSpeakerCandidates candidate_func modelSelect history
        = .error "ValueError: candidate_func returned an empty list of participants")
    ∧ (∀ only, candidate_func history = [only] →
        selectSpeakerCandidates candidate_func modelSelect history = .ok only)
    ∧ (∀ c1 c2 cs, candidate_func history = c1 :: c2 :: cs →
        selectSpeakerCandidates candidate_func modelSelect history
          = .ok (modelSelect (c1 :: c2 :: cs))
        ∧ ((∀ l, l ≠ [] → modelSelect l ∈ l) →
            modelSelect (c1 :: c2 :: cs) ∈ candidate_func history)) := by
  refine ⟨?_, ?_, ?_⟩
  · intro h
    simp [selectSpeakerCandidates, h]
  · intro only h
    simp [selectSpeakerCandidates, h]
  · intro c1 c2 cs h
    constructor
    · simp [selectSpeakerCandidates, h]
    · intro hm
      rw [h]
      exact hm (c1 :: c2 :: cs) (by simp)

/-- Witness for C8: an empty, a singleton and a two-element candidate list,
with the model-driven choice picking the first eligible name. -/
theorem C8_candidate_narrowing_witness :
    (selectSpeakerCandidates (fun _ => []) (fun l => l.getD 0 "") []
        = .error "ValueError: candidate_func returned an empty list of participants")
    ∧ (selectSpeakerCandidates (fun _ => ["WebSearchAgent"]) (fun l => l.getD 0 "") []
        = .ok "WebSearchAgent")
    ∧ (selectSpeakerCandidates (fun _ => ["WebSearchAgent", "DataAnalystAgent"])
        (fun l => l.getD 0 "") [] = .ok "WebSearchAgent") :=
  ⟨(C8_candidate_narrowing (fun _ => []) (fun l => l.getD 0 "") []).1 rfl,
   (C8_candidate_narrowing (fun _ => ["WebSearchAgent"]) (fun l => l.getD 0 "") []).2.1
     "WebSearchAgent" rfl,
   ((C8_candidate_narrowing (fun _ => ["WebSearchAgent", "DataAnalystAgent"])
     (fun l => l.getD 0 "") []).2.2 "WebSearchAgent" "DataAnalystAgent" [] rfl).1⟩

/-- C10: the custom `selector_func` needs a non-empty history (the empty
sequence hits the unguarded `messages[-1]` and is outside its domain); on a
non-empty history it returns the planning agent's name exactly when the last
message's source differs from it and `None` otherwise, and it never directly
selects any other agent. -/
theorem C10_selector_func (messages : List AgentMessage) :
    (messages = [] → selector_func messages = .error "IndexError: list index out of range")
    ∧ (∀ last, messages.getLast? = some last →
        (last.source ≠ planning_agent_name →
          selector_func messages = .ok (some planning_agent_name))
        ∧ (last.source = planning_agent_name → selector_func messages = .ok none))
    ∧ (∀ s, selector_func messages = .ok (some s) → s = planning_agent_name) := by
  refine ⟨?_, ?_, ?_⟩
  · intro h
    subst h
    rfl
  · intro last h
    constructor
    · intro hne
      simp [selector_func, h, hne]
    · intro he
      simp [selector_func, h, he]
  · intro s h
    cases hl : messages.getLast? with
    | none => simp [selector_func, hl] at h
    | some last =>
      simp only [selector_func, hl] at h
      by_cases hne : last.source ≠ planning_agent_name
      · rw [if_pos hne] at h
        cases h
        rfl
      · rw [if_neg hne] at h
        cases h

/-- Witness for C10: the empty history, a history ending in a user message,
and a history ending in the planning agent's own message. -/
theorem C10_selector_func_witness :
    (selector_func [] = .error "IndexError: list index out of range")
    ∧ (selector_func [AgentMessage.text "user" "task"] = .ok (some "PlanningAgent"))
    ∧ (selector_func [AgentMessage.text "PlanningAgent" "plan"] = .ok none) :=
  ⟨(C10_selector_func []).1 rfl,
   ((C10_selector_func [AgentMessage.text "user" "task"]).2.1
      (AgentMessage.text "user" "task") rfl).1 (by decide),
   ((C10_selector_func [AgentMessage.text "PlanningAgent" "plan"]).2.1
      (AgentMessage.text "PlanningAgent" "plan") rfl).2 rfl⟩

/-- A minimal concrete participant behavior for witnesses: no inner events
and a fixed text reply. -/
def constBehavior : String → List AgentMessage → Response :=
  fun _ _ => { inner_messages := [], chat_message := .text "primary" "hi" }

/-- A fresh team (empty transcript, selector at the first participant) with
an armed max-3-messages condition. -/
def freshMax3 : TeamState :=
  { transcript := [], next_index := 0, condition := .maxMessage 3 0 false }

/-- A fresh team with an armed max-1-message condition. -/
def freshMax1 : TeamState :=
  { transcript := [], next_index := 0, condition := .maxMessage 1 0 false }

/-- C3: on every run the termination condition is evaluated exactly once per
participant response — even when a response carries several inner messages —
and each evaluation receives exactly that turn's delta (a new task forms its
own initial delta). The concatenation of all evaluated deltas is precisely
the transcript segment this run appended, so the condition is never handed
the full transcript. -/
theorem C3_condition_sees_exact_deltas (behavior : String → List AgentMessage → Response)
    (participants : List String) (tok : Option Nat) (task : Option String)
    (fuel : Nat) (st : TeamState) (out : RunTrace)
    (hout : out = runTeam behavior participants tok task fuel st)
    (hok : ∀ e, out.result ≠ .failed e) :
    out.deltas = taskDeltas task ++ out.turns.map Response.delta
    ∧ out.deltas.length = (taskDeltas task).length + out.turns.length
    ∧ out.state.transcript = st.transcript ++ out.deltas.flatten := by
  obtain ⟨h1, h2, -, -, -, -, -⟩ := runTeam_spec behavior participants tok task fuel st out hout
  have hd := h2 hok
  exact ⟨hd, by rw [hd]; simp, h1⟩

/-- Witness for C3: a fresh two-participant run with a task under the max-3
condition. -/
theorem C3_condition_sees_exact_deltas_witness :
    (∀ e, (runTeam constBehavior ["primary", "critic"] none (some "go") 2 freshMax3).result
        ≠ RunResult.failed e)
    ∧ ((runTeam constBehavior ["primary", "critic"] none (some "go") 2 freshMax3).deltas
        = taskDeltas (some "go")
          ++ (runTeam constBehavior ["primary", "critic"] none (some "go") 2
              freshMax3).turns.map Response.delta
      ∧ (runTeam constBehavior ["primary", "critic"] none (some "go") 2 freshMax3).deltas.length
        = (taskDeltas (some "go")).length
          + (runTeam constBehavior ["primary", "critic"] none (some "go") 2
              freshMax3).turns.length
      ∧ (runTeam constBehavior ["primary", "critic"] none (some "go") 2
            freshMax3).state.transcript
        = freshMax3.transcript
          ++ (runTeam constBehavior ["primary", "critic"] none (some "go") 2
              freshMax3).deltas.flatten) :=
  ⟨(fun e h => nomatch h),
   C3_condition_sees_exact_deltas constBehavior ["primary", "critic"] none (some "go") 2
     freshMax3 _ rfl (fun e h => nomatch h)⟩

/-- C4: tripping the cancellation token during a run yields the abort
outcome, which is a distinct constructor from a graceful stop (so the two
are distinguished without string inspection, and no `TaskResult` accompanies
an abort); and whatever the outcome, the transcript afterwards extends the
initial one by exactly the fully-committed turn deltas — an in-flight
response interrupted by cancellation is discarded, never partially
committed. -/
theorem C4_cancellation_aborts_cleanly (behavior : String → List AgentMessage → Response)
    (participants : List String) (tok : Option Nat) (task : Option String)
    (fuel : Nat) (st : TeamState) (out : RunTrace)
    (hout : out = runTeam behavior participants tok task fuel st)
    (hok : ∀ e, out.result ≠ .failed e) :
    (out.result = .cancelled ↔ ∃ n, tok = some n ∧ n < out.checks)
    ∧ (out.result = .cancelled → ∀ tr, out.result ≠ .completed tr)
    ∧ out.state.transcript = st.transcript ++ out.deltas.flatten
    ∧ out.deltas = taskDeltas task ++ out.turns.map Response.delta := by
  obtain ⟨h1, h2, -, -, -, -, h7⟩ := runTeam_spec behavior participants tok task fuel st out hout
  refine ⟨h7, ?_, h1, h2 hok⟩
  intro hcan tr hcomp
  rw [hcan] at hcomp
  cases hcomp

/-- Witness for C4: a token already cancelled at the first suspension point
aborts a resumed run before any turn commits. -/
theorem C4_cancellation_aborts_cleanly_witness :
    (∀ e, (runTeam constBehavior ["primary", "critic"] (some 0) none 1 freshMax3).result
        ≠ RunResult.failed e)
    ∧ (((runTeam constBehavior ["primary", "critic"] (some 0) none 1 freshMax3).result
          = .cancelled ↔
        ∃ n, (some 0 : Option Nat) = some n
          ∧ n < (runTeam constBehavior ["primary", "critic"] (some 0) none 1 freshMax3).checks)
      ∧ ((runTeam constBehavior ["primary", "critic"] (some 0) none 1 freshMax3).result
            = .cancelled →
          ∀ tr, (runTeam constBehavior ["primary", "critic"] (some 0) none 1 freshMax3).result
            ≠ .completed tr)
      ∧ (runTeam constBehavior ["primary", "critic"] (some 0) none 1 freshMax3).state.transcript
        = freshMax3.transcript
          ++ (runTeam constBehavior ["primary", "critic"] (some 0) none 1
              freshMax3).deltas.flatten
      ∧ (runTeam constBehavior ["primary", "critic"] (some 0) none 1 freshMax3).deltas
        = taskDeltas none
          ++ (runTeam constBehavior ["primary", "critic"] (some 0) none 1
              freshMax3).turns.map Response.delta) :=
  ⟨(fun e h => nomatch h),
   C4_cancellation_aborts_cleanly constBehavior ["primary", "critic"] (some 0) none 1
     freshMax3 _ rfl (fun e h => nomatch h)⟩

/-- C5: after a run stopped by a termination condition, running again with no
new task resumes: the selector's position persisted (it advanced by exactly
the turns taken), the two runs' speakers form one contiguous round-robin
sequence (so the resumed run's first speaker is the participant after the
previous run's last), and the resumed run's TaskResult holds exactly the
messages of the resumed segment — the transcript grows by precisely that
list, never repeating history. -/
theorem C5_resume_after_stop (behavior : String → List AgentMessage → Response)
    (participants : List String) (task1 : Option String) (fuel1 fuel2 : Nat)
    (st : TeamState) (out1 out2 : RunTrace) (r1 : TaskResult)
    (hout1 : out1 = runTeam behavior participants none task1 fuel1 st)
    (hstop : out1.result = .completed r1)
    (hreason : r1.stop_reason.isSome = true)
    (hout2 : out2 = runTeam behavior participants none none fuel2 out1.state) :
    out1.state.next_index = st.next_index + out1.turns.length
    ∧ (∀ k, (out1.speakers ++ out2.speakers)[k]? =
        if k < out1.turns.length + out2.turns.length then
          some (speakerAt participants (st.next_index + k)) else none)
    ∧ (∀ r2, out2.result = .completed r2 →
        r2.messages = out2.deltas.flatten
        ∧ out2.state.transcript = out1.state.transcript ++ r2.messages) := by
  obtain ⟨-, -, -, -, hn1, -, -⟩ :=
    runTeam_spec behavior participants none task1 fuel1 st out1 hout1
  obtain ⟨ht2, -, -, -, -, hc2, -⟩ :=
    runTeam_spec behavior participants none none fuel2 out1.state out2 hout2
  obtain ⟨-, hsp⟩ := two_run_speakers behavior participants none none task1 none fuel1 fuel2
    st out1 out2 hout1 hout2
  refine ⟨hn1, hsp, ?_⟩
  intro r2 h2
  have hm := hc2 r2 h2
  exact ⟨hm, by rw [ht2, hm]⟩

/-- The TaskResult the max-1 run stops with: only the task message, and a
stop reason naming the threshold. -/
def max1StopResult : TaskResult :=
  { messages := [AgentMessage.text "user" "go"],
    stop_reason := some "Maximum number of messages 1 reached, current message count: 1" }

/-- Witness for C5: a fresh run under the max-1 condition stops on the task
message; the resumed run with no task continues from the same selector
position. -/
theorem C5_resume_after_stop_witness :
    ((runTeam constBehavior ["primary", "critic"] none (some "go") 2 freshMax1).result
        = .completed max1StopResult)
    ∧ ((runTeam constBehavior ["primary", "critic"] none (some "go") 2 freshMax1).state.next_index
        = freshMax1.next_index
          + (runTeam constBehavior ["primary", "critic"] none (some "go") 2 freshMax1).turns.length
      ∧ (∀ k, ((runTeam constBehavior ["primary", "critic"] none (some "go") 2
              freshMax1).speakers
            ++ (runTeam constBehavior ["primary", "critic"] none none 2
                (runTeam constBehavior ["primary", "critic"] none (some "go") 2
                  freshMax1).state).speakers)[k]? =
          if k < (runTeam constBehavior ["primary", "critic"] none (some "go") 2
                freshMax1).turns.length
              + (runTeam constBehavior ["primary", "critic"] none none 2
                  (runTeam constBehavior ["primary", "critic"] none (some "go") 2
                    freshMax1).state).turns.length then
            some (speakerAt ["primary", "critic"] (freshMax1.next_index + k)) else none)
      ∧ (∀ r2, (runTeam constBehavior ["primary", "critic"] none none 2
            (runTeam constBehavior ["primary", "critic"] none (some "go") 2
              freshMax1).state).result = .completed r2 →
          r2.messages = (runTeam constBehavior ["primary", "critic"] none none 2
              (runTeam constBehavior ["primary", "critic"] none (some "go") 2
                freshMax1).state).deltas.flatten
          ∧ (runTeam constBehavior ["primary", "critic"] none none 2
                (runTeam constBehavior ["primary", "critic"] none (some "go") 2
                  freshMax1).state).state.transcript
            = (runTeam constBehavior ["primary", "critic"] none (some "go") 2
                freshMax1).state.transcript ++ r2.messages)) :=
  ⟨by decide,
   C5_resume_after_stop constBehavior ["primary", "critic"] (some "go") 2 2 freshMax1 _ _
     max1StopResult rfl (by decide) (by decide) rfl⟩

/-- C7: the round-robin speaker sequence over the participant registry is the
cyclic order starting at the persisted position — hence periodic with period
N = number of participants — and it continues contiguously across two
consecutive run invocations with no intervening reset (each run resumes from
the participant after the previous run's last speaker). -/
theorem C7_round_robin_periodic (behavior : String → List AgentMessage → Response)
    (participants : List String) (task1 task2 : Option String) (fuel1 fuel2 : Nat)
    (st : TeamState) (out1 out2 : RunTrace) (seq : List String)
    (hout1 : out1 = runTeam behavior participants none task1 fuel1 st)
    (hout2 : out2 = runTeam behavior participants none task2 fuel2 out1.state)
    (hseq : seq = out1.speakers ++ out2.speakers) :
    (∀ k, seq[k]? = if k < out1.turns.length + out2.turns.length then
        some (speakerAt participants (st.next_index + k)) else none)
    ∧ (∀ k, k + participants.length < seq.length →
        seq[k + participants.length]? = seq[k]?) := by
  subst hseq
  obtain ⟨hlen, hsp⟩ := two_run_speakers behavior participants none none task1 task2 fuel1 fuel2
    st out1 out2 hout1 hout2
  refine ⟨hsp, ?_⟩
  intro k hk
  rw [hlen] at hk
  rw [hsp, hsp]
  rw [if_pos hk, if_pos (by omega)]
  rw [show st.next_index + (k + participants.length)
      = (st.next_index + k) + participants.length from by omega]
  rw [speakerAt_add_length]

/-- Witness for C7: two consecutive fresh-task/no-task runs of the
two-participant team. -/
theorem C7_round_robin_periodic_witness :
    (∀ k, ((runTeam constBehavior ["primary", "critic"] none (some "go") 2 freshMax3).speakers
        ++ (runTeam constBehavior ["primary", "critic"] none none 2
            (runTeam constBehavior ["primary", "critic"] none (some "go") 2
              freshMax3).state).speakers)[k]? =
      if k < (runTeam constBehavior ["primary", "critic"] none (some "go") 2
            freshMax3).turns.length
          + (runTeam constBehavior ["primary", "critic"] none none 2
              (runTeam constBehavior ["primary", "critic"] none (some "go") 2
                freshMax3).state).turns.length then
        some (speakerAt ["primary", "critic"] (freshMax3.next_index + k)) else none)
    ∧ (∀ k, k + (["primary", "critic"] : List String).length
          < ((runTeam constBehavior ["primary", "critic"] none (some "go") 2
                freshMax3).speakers
              ++ (runTeam constBehavior ["primary", "critic"] none none 2
                  (runTeam constBehavior ["primary", "critic"] none (some "go") 2
                    freshMax3).state).speakers).length →
        ((runTeam constBehavior ["primary", "critic"] none (some "go") 2 freshMax3).speakers
            ++ (runTeam constBehavior ["primary", "critic"] none none 2
                (runTeam constBehavior ["primary", "critic"] none (some "go") 2
                  freshMax3).state).speakers)[k + (["primary", "critic"] : List String).length]?
          = ((runTeam constBehavior ["primary", "critic"] none (some "go") 2
              freshMax3).speakers
            ++ (runTeam constBehavior ["primary", "critic"] none none 2
                (runTeam constBehavior ["primary", "critic"] none (some "go") 2
                  freshMax3).state).speakers)[k]?) :=
  C7_round_robin_periodic constBehavior ["primary", "critic"] (some "go") none 2 2 freshMax3
    _ _ _ rfl rfl rfl

/-- C6: with a max-3 message condition, two participants, and each response a
single chat message, a run started fresh with a task stops exactly after the
3rd message (task message plus two turns; no 4th message or 3rd turn is
generated), and the TaskResult's stop reason cites the message-count
threshold. -/
theorem C6_max_three_stops_after_third (behavior : String → List AgentMessage → Response)
    (p1 p2 : String) (taskText : String) (fuel : Nat)
    (hb : ∀ name transcript, (behavior name transcript).inner_messages = [])
    (hfuel : 2 ≤ fuel) :
    ∃ tr, (runTeam behavior [p1, p2] none (some taskText) fuel freshMax3).result
        = .completed tr
      ∧ tr.messages.length = 3
      ∧ (runTeam behavior [p1, p2] none (some taskText) fuel freshMax3).turns.length = 2
      ∧ tr.stop_reason
          = some "Maximum number of messages 3 reached, current message count: 3" := by
  obtain ⟨k, hk⟩ := Nat.le.dest hfuel
  have hfe : fuel = k + 2 := by omega
  subst hfe
  have hdelta : ∀ n t, (behavior n t).delta = [(behavior n t).chat_message] := by
    intro n t
    simp [Response.delta, hb]
  have h0 : (TerminationCondition.maxMessage 3 0 false).call [taskMessage taskText]
      = .ok (none, .maxMessage 3 1 false) := by
    simp [TerminationCondition.call]
  have h1 : ∀ msgs : List AgentMessage, msgs.length = 1 →
      (TerminationCondition.maxMessage 3 1 false).call msgs
        = .ok (none, .maxMessage 3 2 false) := by
    intro msgs hlen
    simp [TerminationCondition.call, hlen]
  have h2 : ∀ msgs : List AgentMessage, msgs.length = 1 →
      (TerminationCondition.maxMessage 3 2 false).call msgs
        = .ok (some { content := "Maximum number of messages " ++ toString 3
                        ++ " reached, current message count: " ++ toString 3,
                      source := "MaxMessageTermination" },
               .maxMessage 3 3 true) := by
    intro msgs hlen
    simp [TerminationCondition.call, hlen]
  have hlen1 : ∀ n t, (behavior n t).delta.length = 1 := by
    intro n t
    rw [hdelta]
    rfl
  simp only [runTeam, freshMax3, h0]
  simp only [stepLoop, decrToken]
  simp only [h1 _ (hlen1 _ _), h2 _ (hlen1 _ _)]
  simp only [reduceCtorEq, if_false, ite_false]
  refine ⟨_, rfl, ?_, ?_, ?_⟩
  · simp [prependTask, prependTurn, stopTrace, prependResult, hdelta]
  · simp [prependTask, prependTurn, stopTrace]
  · simp [prependTask, prependTurn, stopTrace, prependResult]
    rfl

/-- Witness for C6: a fresh run with the constant single-message behavior and
fuel 2. -/
theorem C6_max_three_stops_after_third_witness :
    (∀ name transcript, (constBehavior name transcript).inner_messages = [])
    ∧ 2 ≤ 2
    ∧ ∃ tr, (runTeam constBehavior ["primary", "critic"] none (some "go") 2 freshMax3).result
          = .completed tr
        ∧ tr.messages.length = 3
        ∧ (runTeam constBehavior ["primary", "critic"] none (some "go") 2
            freshMax3).turns.length = 2
        ∧ tr.stop_reason
            = some "Maximum number of messages 3 reached, current message count: 3" :=
  ⟨fun _ _ => rfl, Nat.le.refl,
   C6_max_three_stops_after_third constBehavior "primary" "critic" "go" 2
     (fun _ _ => rfl) Nat.le.refl⟩

end AutogenWorkshop
